import Mathlib

/-!
Shallow embedding of the tv-screener TypeScript sources
(`src/models.ts`, `src/operators.ts`, `src/query.ts`, and the `Column`
class) and proofs about the query-builder, the logical combinators and
the response mapper.

Conventions of the embedding:
* a TypeScript object field declared optional (`f?: T`) is an
  `Option T`; `none` models the key being absent / `undefined`;
* `any`-typed payloads (filter operands, row data values) are JSON
  values, modeled by the `Json` inductive below; JSON numbers are
  modeled as rationals (they are only carried around, never computed
  with);
* class methods that mutate `this` become functions
  `state → args → state`; the builder state is the `queryDict` field,
  of type `QueryDict`.
-/

namespace TVScreener

/-- JSON values, the model of TypeScript `any` payloads and of the
serialized wire document. -/
inductive Json where
  | null : Json
  | bool : Bool → Json
  | num : Rat → Json
  | str : String → Json
  | arr : List Json → Json
  | obj : List (String × Json) → Json

/-- Lookup of a key in a JSON object field list (first match wins,
like JavaScript property access on the objects we build). -/
def lookupField : List (String × Json) → String → Option Json
  | [], _ => none
  | (k, v) :: rest, key => if k = key then some v else lookupField rest key

/-- Field access on a JSON value: `none` unless it is an object that
carries the key. -/
def Json.getField : Json → String → Option Json
  | .obj fields, key => lookupField fields key
  | _, _ => none

/-- Wire-level operation codes (`Operation` in models.ts).  The TS
string `'match'` is the constructor `matchOp` (`match` is reserved in
Lean); every constructor's wire string is given by `Operation.code`. -/
inductive Operation where
  | greater | less | egreater | eless | equal | nequal
  | in_range | not_in_range | in_day_range | in_week_range | in_month_range
  | above_pct | below_pct | in_range_pct | not_in_range_pct
  | crosses | crosses_above | crosses_below
  | matchOp | nmatch
  | has | has_none_of
  | empty | nempty
deriving DecidableEq

/-- Wire string of an operation code. -/
def Operation.code : Operation → String
  | .greater => "greater"
  | .less => "less"
  | .egreater => "egreater"
  | .eless => "eless"
  | .equal => "equal"
  | .nequal => "nequal"
  | .in_range => "in_range"
  | .not_in_range => "not_in_range"
  | .in_day_range => "in_day_range"
  | .in_week_range => "in_week_range"
  | .in_month_range => "in_month_range"
  | .above_pct => "above_pct"
  | .below_pct => "below_pct"
  | .in_range_pct => "in_range_pct"
  | .not_in_range_pct => "not_in_range_pct"
  | .crosses => "crosses"
  | .crosses_above => "crosses_above"
  | .crosses_below => "crosses_below"
  | .matchOp => "match"
  | .nmatch => "nmatch"
  | .has => "has"
  | .has_none_of => "has_none_of"
  | .empty => "empty"
  | .nempty => "nempty"

/-- Sort order (`SortOrder` in models.ts). -/
inductive SortOrder where
  | asc | desc
deriving DecidableEq

/-- Wire string of a sort order. -/
def SortOrder.code : SortOrder → String
  | .asc => "asc"
  | .desc => "desc"

/-- Logical connective (`LogicalOperator` in models.ts). -/
inductive LogicalOperator where
  | and | or
deriving DecidableEq

/-- Wire string of a logical connective. -/
def LogicalOperator.code : LogicalOperator → String
  | .and => "and"
  | .or => "or"

/-- A simple predicate (`FilterOperationDict` in models.ts):
`{left, operation, right?}`; `right := none` models the `right` key
being absent from the object. -/
structure FilterOperationDict where
  left : String
  operation : Operation
  right : Option Json

/-- Leaf wrapper (`ExpressionDict` in models.ts). -/
structure ExpressionDict where
  expression : FilterOperationDict

/-- One operand of a connective: either an `ExpressionDict` leaf or a
nested operation node.  `opD l ops` is the operand form of an
`OperationDict` `{operation: {operator: l, operands: ops}}` (flattened
here to avoid a mutual inductive; `OperationDict.toOperand` below
injects the structure form). -/
inductive Operand where
  | exprD : ExpressionDict → Operand
  | opD : LogicalOperator → List Operand → Operand

/-- Connective body (`OperationComparisonDict` in models.ts). -/
structure OperationComparisonDict where
  operator : LogicalOperator
  operands : List Operand

/-- Connective node (`OperationDict` in models.ts). -/
structure OperationDict where
  operation : OperationComparisonDict

/-- View an `OperationDict` as an operand of an enclosing connective. -/
def OperationDict.toOperand (o : OperationDict) : Operand :=
  .opD o.operation.operator o.operation.operands

/-- Sort configuration (`SortByDict` in models.ts). -/
structure SortByDict where
  sortBy : String
  sortOrder : SortOrder
  nullsFirst : Option Bool

/-- The `query` member of a symbols dictionary. -/
structure SymbolsQueryDict where
  types : List String

/-- The `watchlist` member of a symbols dictionary. -/
structure WatchlistDict where
  id : String

/-- One `{type, values}` group filter. -/
structure GroupDict where
  type : String
  values : List String

/-- Symbol selection (`SymbolsDict` in models.ts); every field is
optional. -/
structure SymbolsDict where
  query : Option SymbolsQueryDict
  tickers : Option (List String)
  symbolset : Option String
  watchlist : Option WatchlistDict
  groups : Option (List GroupDict)

/-- The symbols dictionary with no field set (TS `{}`). -/
def SymbolsDict.emptyDict : SymbolsDict :=
  { query := none, tickers := none, symbolset := none,
    watchlist := none, groups := none }

/-- The `options` member of a query dictionary. -/
structure OptionsDict where
  lang : Option String

/-- The `price_conversion` member of a query dictionary. -/
structure PriceConversionDict where
  to_symbol : Option Bool

/-- The builder state / wire request document (`QueryDict` in
models.ts). -/
structure QueryDict where
  markets : Option (List String)
  symbols : Option SymbolsDict
  options : Option OptionsDict
  columns : Option (List String)
  filter : Option (List FilterOperationDict)
  filter2 : Option OperationDict
  sort : Option SortByDict
  range : Option (Int × Int)
  preset : Option String
  price_conversion : Option PriceConversionDict

/-- One raw result row (`ScreenerRowDict` in models.ts): symbol `s`
and positional data values `d`. -/
structure ScreenerRowDict where
  s : String
  d : List Json

/-- Raw scan response (`ScreenerDict` in models.ts). -/
structure ScreenerDict where
  totalCount : Int
  data : List ScreenerRowDict

/-- A mapped record: an ordered JavaScript object, keys to values;
the value `none` models a key holding `undefined` (from an
out-of-bounds data access). -/
abbrev JsRecord : Type := List (String × Option Json)

/-- Mapped scan result (`ScannerData` in models.ts). -/
structure ScannerData where
  totalCount : Int
  data : List JsRecord

/-! Column expression builder (the `Column` class).  Only the members
the claims are about are embedded; every other method is a one-line
record literal of the same shape with a `right` value. -/

/-- A named screener field (the `Column` class). -/
structure Column where
  name : String

/-- Convenience constructor (`col` in the source). -/
def col (name : String) : Column := ⟨name⟩

/-- Greater-than predicate (`Column.gt`). -/
def Column.gt (c : Column) (value : Json) : FilterOperationDict :=
  { left := c.name, operation := .greater, right := some value }

/-- Equality predicate (`Column.eq`). -/
def Column.eq (c : Column) (value : Json) : FilterOperationDict :=
  { left := c.name, operation := .equal, right := some value }

/-- Is-empty predicate (`Column.empty`): the source object literal
carries no `right` key, hence `right := none`. -/
def Column.empty (c : Column) : FilterOperationDict :=
  { left := c.name, operation := .empty, right := none }

/-- Is-not-empty predicate (`Column.notEmpty`): the source object
literal carries no `right` key, hence `right := none`. -/
def Column.notEmpty (c : Column) : FilterOperationDict :=
  { left := c.name, operation := .nempty, right := none }

/-! Logical combinators (operators.ts). -/

/-- One argument of `And`/`Or`
(`FilterOperationDict | OperationDict` in the source). -/
inductive AndOrArg where
  | pred : FilterOperationDict → AndOrArg
  | opd : OperationDict → AndOrArg

/-- The structural tag check of operators.ts:
`'operation' in expr && typeof expr.operation === 'object' && expr.operation !== null && 'operator' in expr.operation`.
On a `FilterOperationDict` the `operation` member is a string, so the
check is false; on an `OperationDict` it is an object carrying
`operator`, so the check is true. -/
def isTaggedOperation : AndOrArg → Bool
  | .pred _ => false
  | .opd _ => true

/-- The `expressions.map` body shared by `And` and `Or`.  The source
branches on the duck-type check (`isTaggedOperation`), which holds
exactly on the `opd` constructor, so the branch is the constructor
match: an already-tagged node is passed through unchanged, a bare
predicate is wrapped as an `ExpressionDict` leaf. -/
def toOperandOfArg : AndOrArg → Operand
  | .opd o => o.toOperand
  | .pred p => .exprD ⟨p⟩

/-- AND combinator (`And` in operators.ts). -/
def And (expressions : List AndOrArg) : OperationDict :=
  { operation :=
      { operator := .and,
        operands := expressions.map toOperandOfArg } }

/-- OR combinator (`Or` in operators.ts). -/
def Or (expressions : List AndOrArg) : OperationDict :=
  { operation :=
      { operator := .or,
        operands := expressions.map toOperandOfArg } }

/-! Query builder (query.ts).  The class state is its `queryDict`
member; each method becomes a function `QueryDict → … → QueryDict`.
The TS falsiness guards (`if (!this.queryDict.range)` and the like)
test for `undefined`, since the guarded members are objects or arrays
(always truthy when present); they become `Option` matches. -/

/-- The builder state installed by the `Query` constructor. -/
def Query.new : QueryDict :=
  { markets := some ["america"],
    symbols := some SymbolsDict.emptyDict,
    options := some { lang := some "en" },
    columns := some ["name", "close", "volume", "market_cap_basic"],
    filter := some [],
    filter2 := none,
    sort := some { sortBy := "name", sortOrder := .asc, nullsFirst := none },
    range := some (0, 50),
    preset := none,
    price_conversion := none }

/-- Column selection (`Query.select`): replaces the column list when
given at least one column, otherwise leaves the state unchanged. -/
def Query.select (q : QueryDict) (columns : List String) : QueryDict :=
  if columns.length > 0 then { q with columns := some columns } else q

/-- Market selection (`Query.setMarkets`): replaces the market list
when given at least one market, otherwise leaves the state
unchanged. -/
def Query.setMarkets (q : QueryDict) (markets : List String) : QueryDict :=
  if markets.length > 0 then { q with markets := some markets } else q

/-- Ticker selection (`Query.setTickers`): on a non-empty argument
list, materializes `symbols` if absent and replaces its `tickers`
member. -/
def Query.setTickers (q : QueryDict) (tickers : List String) : QueryDict :=
  if tickers.length > 0 then
    let syms := match q.symbols with
      | none => SymbolsDict.emptyDict
      | some s => s
    { q with symbols := some { syms with tickers := some tickers } }
  else q

/-- Index selection (`Query.setIndex`): on a non-empty argument list,
materializes `symbols` and its `groups` array if absent, then pushes
one `{type: "index", values: indexes}` group. -/
def Query.setIndex (q : QueryDict) (indexes : List String) : QueryDict :=
  if indexes.length > 0 then
    let syms := match q.symbols with
      | none => SymbolsDict.emptyDict
      | some s => s
    let groups := match syms.groups with
      | none => []
      | some gs => gs
    { q with
      symbols := some ({ syms with
                         groups := some (groups ++ [⟨"index", indexes⟩]) }) }
  else q

/-- Flat filter accumulation (`Query.where`; renamed, `where` is
reserved in Lean): materializes the filter list if absent and appends
every given expression in order. -/
def Query.whereFilters (q : QueryDict) (expressions : List FilterOperationDict) :
    QueryDict :=
  let f := match q.filter with
    | none => []
    | some fs => fs
  { q with filter := some (f ++ expressions) }

/-- Boolean-tree filter (`Query.where2`): replaces `filter2`
wholesale. -/
def Query.where2 (q : QueryDict) (operation : OperationDict) : QueryDict :=
  { q with filter2 := some operation }

/-- Sort directive (`Query.orderBy`); the TS defaults
(`ascending = true`, `nullsFirst = false`) are passed explicitly
here.  `nullsFirst` is always written into the sort object. -/
def Query.orderBy (q : QueryDict) (column : String) (ascending : Bool)
    (nullsFirst : Bool) : QueryDict :=
  { q with
    sort := some ({ sortBy := column,
                    sortOrder := if ascending then .asc else .desc,
                    nullsFirst := some nullsFirst }) }

/-- Result cap (`Query.limit`): with no range set, installs
`[0, limit]`; otherwise rewrites only the upper bound to
`lowerBound + limit`. -/
def Query.limit (q : QueryDict) (limit : Int) : QueryDict :=
  match q.range with
  | none => { q with range := some (0, limit) }
  | some (lo, _) => { q with range := some (lo, lo + limit) }

/-- Pagination offset (`Query.offset`): with no range set, installs
`[offset, offset + 50]`; otherwise preserves the current window width
`upper - lower` and rebases the range at `offset`. -/
def Query.offset (q : QueryDict) (offset : Int) : QueryDict :=
  match q.range with
  | none => { q with range := some (offset, offset + 50) }
  | some (lo, hi) => { q with range := some (offset, offset + (hi - lo)) }

/-! Serialization (`Query.toJSON` is `JSON.stringify(queryDict, null, 2)`).
The embedding renders to the `Json` tree rather than to the string:
a key is emitted exactly when its member is not `undefined`
(`JSON.stringify` drops `undefined`-valued keys), which is the
`Option` being `some`.  Key order follows the interface declaration;
the claims only concern key membership and values. -/

/-- Emit one optional object field: absent member, no key. -/
def optField (key : String) : Option Json → List (String × Json)
  | none => []
  | some v => [(key, v)]

/-- Serialize a string list. -/
def strArr (xs : List String) : Json :=
  .arr (xs.map .str)

/-- Serialize a simple predicate: the `right` key is emitted only
when the member is present. -/
def FilterOperationDict.toJson (f : FilterOperationDict) : Json :=
  .obj ([("left", .str f.left), ("operation", .str f.operation.code)]
        ++ optField "right" f.right)

mutual

/-- Serialize one operand of a connective. -/
def Operand.toJson : Operand → Json
  | .exprD e => .obj [("expression", e.expression.toJson)]
  | .opD operator operands =>
      .obj [("operation",
             .obj [("operator", .str operator.code),
                   ("operands", .arr (Operand.listToJson operands))])]

/-- Serialize an operand list (structural helper for
`Operand.toJson`). -/
def Operand.listToJson : List Operand → List Json
  | [] => []
  | x :: xs => x.toJson :: Operand.listToJson xs

end

/-- Serialize a connective node. -/
def OperationDict.toJson (o : OperationDict) : Json :=
  o.operation.operator |> fun operator =>
    .obj [("operation",
           .obj [("operator", .str operator.code),
                 ("operands", .arr (Operand.listToJson o.operation.operands))])]

/-- Serialize a `{type, values}` group. -/
def GroupDict.toJson (g : GroupDict) : Json :=
  .obj [("type", .str g.type), ("values", strArr g.values)]

/-- Serialize the symbols dictionary. -/
def SymbolsDict.toJson (s : SymbolsDict) : Json :=
  .obj (optField "query" (s.query.map fun sq => .obj [("types", strArr sq.types)])
        ++ optField "tickers" (s.tickers.map strArr)
        ++ optField "symbolset" (s.symbolset.map .str)
        ++ optField "watchlist" (s.watchlist.map fun w => .obj [("id", .str w.id)])
        ++ optField "groups" (s.groups.map fun gs => .arr (gs.map GroupDict.toJson)))

/-- Serialize the sort directive. -/
def SortByDict.toJson (s : SortByDict) : Json :=
  .obj ([("sortBy", .str s.sortBy), ("sortOrder", .str s.sortOrder.code)]
        ++ optField "nullsFirst" (s.nullsFirst.map .bool))

/-- Serialize the whole builder state into the wire document. -/
def QueryDict.toJson (q : QueryDict) : Json :=
  .obj (optField "markets" (q.markets.map strArr)
        ++ optField "symbols" (q.symbols.map SymbolsDict.toJson)
        ++ optField "options" (q.options.map fun o =>
             .obj (optField "lang" (o.lang.map .str)))
        ++ optField "columns" (q.columns.map strArr)
        ++ optField "filter" (q.filter.map fun fs =>
             .arr (fs.map FilterOperationDict.toJson))
        ++ optField "filter2" (q.filter2.map OperationDict.toJson)
        ++ optField "sort" (q.sort.map SortByDict.toJson)
        ++ optField "range" (q.range.map fun r =>
             .arr [.num (r.1 : Rat), .num (r.2 : Rat)])
        ++ optField "preset" (q.preset.map .str)
        ++ optField "price_conversion" (q.price_conversion.map fun pc =>
             .obj (optField "to_symbol" (pc.to_symbol.map .bool))))

/-- The serialized query document (`Query.toJSON`), as a JSON tree. -/
def Query.toJSON (q : QueryDict) : Json :=
  QueryDict.toJson q

/-! Response mapper (`Query.getScannerData`).  The network round trip
is out of scope; the mapper is the pure function from the builder
state and a raw response to the mapped result. -/

/-- JavaScript property assignment `obj[k] = v` on an ordered record:
overwrite in place when the key exists, append otherwise. -/
def setKey (obj : JsRecord) (k : String) (v : Option Json) : JsRecord :=
  if obj.any (fun p => p.1 == k) then
    obj.map (fun p => if p.1 == k then (k, v) else p)
  else
    obj ++ [(k, v)]

/-- Build one mapped record from a wire row: start from
`{symbol: row.s}` and assign `obj[columns[i]] = row.d[i]` for each
column index (an out-of-bounds access yields `undefined`, modeled
`none`). -/
def mapRow (columns : List String) (row : ScreenerRowDict) : JsRecord :=
  List.foldl (fun obj ic => setKey obj ic.2 (row.d.get? ic.1))
    [("symbol", some (.str row.s))] columns.enum

/-- Pure core of `Query.getScannerData`: map every row of the raw
response against the query's column list (an absent column list maps
as the empty list) and pass `totalCount` through. -/
def Query.getScannerData (q : QueryDict) (rawData : ScreenerDict) : ScannerData :=
  let columns := match q.columns with
    | none => []
    | some cs => cs
  { totalCount := rawData.totalCount,
    data := rawData.data.map (mapRow columns) }

/-! Deep copy (`Query.copy`).  The source clones via
`JSON.parse(JSON.stringify(queryDict))`; on the builder states of this
model (every member JSON-representable, absent keys as `none`) that
round trip rebuilds every nested container and preserves the value.
It is embedded as the structural rebuild below; `copy_eq_self` in the
theorems section proves the rebuild is value-identity. -/

mutual

/-- Structural rebuild of a JSON tree (the value content of a
stringify/parse round trip). -/
def cloneJson : Json → Json
  | .null => .null
  | .bool b => .bool b
  | .num n => .num n
  | .str s => .str s
  | .arr xs => .arr (cloneJsonList xs)
  | .obj fields => .obj (cloneJsonFields fields)

/-- Rebuild of a JSON array body. -/
def cloneJsonList : List Json → List Json
  | [] => []
  | x :: xs => cloneJson x :: cloneJsonList xs

/-- Rebuild of a JSON object body. -/
def cloneJsonFields : List (String × Json) → List (String × Json)
  | [] => []
  | (k, v) :: rest => (k, cloneJson v) :: cloneJsonFields rest

end

/-- Rebuild of a simple predicate. -/
def FilterOperationDict.clone (f : FilterOperationDict) : FilterOperationDict :=
  { left := f.left, operation := f.operation, right := f.right.map cloneJson }

mutual

/-- Rebuild of an operand tree. -/
def Operand.clone : Operand → Operand
  | .exprD e => .exprD ⟨e.expression.clone⟩
  | .opD operator operands => .opD operator (Operand.cloneList operands)

/-- Rebuild of an operand list. -/
def Operand.cloneList : List Operand → List Operand
  | [] => []
  | x :: xs => x.clone :: Operand.cloneList xs

end

/-- Rebuild of a connective node. -/
def OperationDict.clone (o : OperationDict) : OperationDict :=
  ⟨⟨o.operation.operator, Operand.cloneList o.operation.operands⟩⟩

/-- Rebuild of the symbols dictionary. -/
def SymbolsDict.clone (s : SymbolsDict) : SymbolsDict :=
  { query := s.query.map fun sq => ⟨sq.types⟩,
    tickers := s.tickers,
    symbolset := s.symbolset,
    watchlist := s.watchlist.map fun w => ⟨w.id⟩,
    groups := s.groups.map fun gs => gs.map fun g => ⟨g.type, g.values⟩ }

/-- Deep clone of the whole builder state (`Query.copy`): a fresh
state rebuilt container by container, sharing nothing with the
source. -/
def Query.copy (q : QueryDict) : QueryDict :=
  { markets := q.markets,
    symbols := q.symbols.map SymbolsDict.clone,
    options := q.options.map fun o => ⟨o.lang⟩,
    columns := q.columns,
    filter := q.filter.map fun fs => fs.map FilterOperationDict.clone,
    filter2 := q.filter2.map OperationDict.clone,
    sort := q.sort.map fun s => ⟨s.sortBy, s.sortOrder, s.nullsFirst⟩,
    range := q.range.map fun r => (r.1, r.2),
    preset := q.preset,
    price_conversion := q.price_conversion.map fun pc => ⟨pc.to_symbol⟩ }

/-! Builder operations as data, for statements quantifying over every
sequence of builder calls, and a two-cell store modeling an original
builder next to its copy. -/

/-- One mutating builder call, with its arguments. -/
inductive BuilderOp where
  | select : List String → BuilderOp
  | setMarkets : List String → BuilderOp
  | setTickers : List String → BuilderOp
  | setIndex : List String → BuilderOp
  | whereFilters : List FilterOperationDict → BuilderOp
  | where2 : OperationDict → BuilderOp
  | orderBy : String → Bool → Bool → BuilderOp
  | limit : Int → BuilderOp
  | offset : Int → BuilderOp

/-- Apply one builder call to a builder state. -/
def Query.applyOp (q : QueryDict) : BuilderOp → QueryDict
  | .select cs => Query.select q cs
  | .setMarkets ms => Query.setMarkets q ms
  | .setTickers ts => Query.setTickers q ts
  | .setIndex ixs => Query.setIndex q ixs
  | .whereFilters es => Query.whereFilters q es
  | .where2 o => Query.where2 q o
  | .orderBy c a n => Query.orderBy q c a n
  | .limit n => Query.limit q n
  | .offset n => Query.offset q n

/-- Apply a sequence of builder calls in order. -/
def Query.applyOps (q : QueryDict) (ops : List BuilderOp) : QueryDict :=
  List.foldl Query.applyOp q ops

/-- The arguments of a builder call that feed the range arithmetic are
non-negative (trivially true for calls other than limit/offset). -/
def opNonNeg : BuilderOp → Prop
  | .limit n => 0 ≤ n
  | .offset n => 0 ≤ n
  | _ => True

/-- A store of builder instances: each cell one exclusively owned
builder state; a builder reference is a cell index. -/
def Store : Type := List QueryDict

/-- Mutate the builder at one cell in place (cells at other indices
are untouched, as each `Query` owns its own `queryDict`). -/
def Store.applyAt (cells : Store) (i : Nat) (op : BuilderOp) : Store :=
  List.set cells i (Query.applyOp (cells.getD i Query.new) op)

/-- Apply a call sequence to the builder at one cell. -/
def Store.applyOpsAt (cells : Store) (i : Nat) (ops : List BuilderOp) : Store :=
  List.foldl (fun cs op => Store.applyAt cs i op) cells ops

/-- The store after `C = Q.copy()`: cell 0 holds `Q`, cell 1 holds
the freshly allocated deep clone `C`. -/
def copyStore (q : QueryDict) : Store :=
  [q, Query.copy q]

/-! Helper lemmas. -/

mutual

/-- The JSON rebuild is value-identity. -/
theorem cloneJson_eq : ∀ j, cloneJson j = j
  | .null => rfl
  | .bool _ => rfl
  | .num _ => rfl
  | .str _ => rfl
  | .arr xs => by rw [cloneJson, cloneJsonList_eq xs]
  | .obj fields => by rw [cloneJson, cloneJsonFields_eq fields]

/-- The JSON array-body rebuild is value-identity. -/
theorem cloneJsonList_eq : ∀ xs, cloneJsonList xs = xs
  | [] => rfl
  | x :: xs => by rw [cloneJsonList, cloneJson_eq x, cloneJsonList_eq xs]

/-- The JSON object-body rebuild is value-identity. -/
theorem cloneJsonFields_eq : ∀ fields, cloneJsonFields fields = fields
  | [] => rfl
  | (k, v) :: rest => by
      rw [cloneJsonFields, cloneJson_eq v, cloneJsonFields_eq rest]

end

/-- The predicate rebuild is value-identity. -/
theorem filterOp_clone_eq (f : FilterOperationDict) : f.clone = f := by
  cases f with
  | mk left operation right =>
      cases right with
      | none => rfl
      | some v => simp [FilterOperationDict.clone, cloneJson_eq]

mutual

/-- The operand rebuild is value-identity. -/
theorem operand_clone_eq : ∀ o : Operand, o.clone = o
  | .exprD e => by
      rw [Operand.clone, filterOp_clone_eq]
  | .opD operator operands => by
      rw [Operand.clone, operandList_clone_eq operands]

/-- The operand-list rebuild is value-identity. -/
theorem operandList_clone_eq : ∀ os : List Operand, Operand.cloneList os = os
  | [] => rfl
  | x :: xs => by rw [Operand.cloneList, operand_clone_eq x, operandList_clone_eq xs]

end

/-- The connective rebuild is value-identity. -/
theorem operationDict_clone_eq (o : OperationDict) : o.clone = o := by
  cases o with
  | mk oc =>
      cases oc with
      | mk operator operands =>
          rw [OperationDict.clone, operandList_clone_eq]

/-- The symbols-dictionary rebuild is value-identity. -/
theorem symbolsDict_clone_eq (s : SymbolsDict) : s.clone = s := by
  cases s with
  | mk query tickers symbolset watchlist groups =>
      cases query <;> cases watchlist <;> cases groups <;>
        simp [SymbolsDict.clone]

/-- The filter-list rebuild is value-identity. -/
theorem filterList_clone_eq (fs : List FilterOperationDict) :
    fs.map FilterOperationDict.clone = fs := by
  induction fs with
  | nil => rfl
  | cons f rest ih => simp [filterOp_clone_eq, ih]

/-- C1: starting from a freshly constructed builder (default range
`[0,50]`), `limit(10)` yields range `[0,10]`; `offset(5)` on that
result yields `[5,15]` (the width 10 is preserved); `limit(20)` on
that yields `[5,25]` (the lower bound 5 is preserved and the width
re-anchored to 20). -/
theorem claim_C1_range_composition :
    Query.new.range = some (0, 50) ∧
    (Query.limit Query.new 10).range = some (0, 10) ∧
    (Query.offset (Query.limit Query.new 10) 5).range = some (5, 15) ∧
    (Query.limit (Query.offset (Query.limit Query.new 10) 5) 20).range =
      some (5, 25) := by
  refine ⟨rfl, by decide, by decide, by decide⟩

/-- C3, counterexample: the serialized document of a freshly
constructed, untouched builder carries the `filter` and `symbols`
keys (with empty placeholders), so the claim that they are absent
keys is false at this input. -/
theorem claim_C3_counterexample :
    (Query.toJSON Query.new).getField "filter" = some (.arr []) ∧
    (Query.toJSON Query.new).getField "symbols" = some (.obj []) :=
  ⟨rfl, rfl⟩

/-- C3, amended: the serialized document of an untouched builder
contains `filter` as an empty array and `symbols` as an empty object
(present keys with empty placeholders, installed by the constructor),
while `markets`, `sort` and `range` are present with their defaults;
the keys never given a value (`filter2`, `preset`) are absent. -/
theorem claim_C3_untouched_document :
    (Query.toJSON Query.new).getField "markets" = some (.arr [.str "america"]) ∧
    (Query.toJSON Query.new).getField "sort" =
      some (.obj [("sortBy", .str "name"), ("sortOrder", .str "asc")]) ∧
    (Query.toJSON Query.new).getField "range" =
      some (.arr [.num 0, .num 50]) ∧
    (Query.toJSON Query.new).getField "filter" = some (.arr []) ∧
    (Query.toJSON Query.new).getField "symbols" = some (.obj []) ∧
    (Query.toJSON Query.new).getField "filter2" = none ∧
    (Query.toJSON Query.new).getField "preset" = none :=
  ⟨rfl, rfl, rfl, rfl, rfl, rfl, rfl⟩

/-- C8: calling select, setMarkets or setTickers with zero arguments
leaves the builder state entirely unchanged (a silent no-op, not an
error). -/
theorem claim_C8_empty_variadic_noop (q : QueryDict) :
    Query.select q [] = q ∧
    Query.setMarkets q [] = q ∧
    Query.setTickers q [] = q :=
  ⟨rfl, rfl, rfl⟩

/-- C9: for every field name, the predicates produced by
`col(f).empty()` and `col(f).notEmpty()` carry no operand: the
`right` member is absent (no `right` key in the serialized object),
while `left` and the operation code (`empty` / `nempty`) are set. -/
theorem claim_C9_nullary_no_operand (f : String) :
    Column.empty (col f) = ⟨f, .empty, none⟩ ∧
    Column.notEmpty (col f) = ⟨f, .nempty, none⟩ ∧
    (Column.empty (col f)).toJson.getField "right" = none ∧
    (Column.notEmpty (col f)).toJson.getField "right" = none ∧
    (Column.empty (col f)).toJson.getField "left" = some (.str f) ∧
    (Column.empty (col f)).toJson.getField "operation" = some (.str "empty") ∧
    (Column.notEmpty (col f)).toJson.getField "left" = some (.str f) ∧
    (Column.notEmpty (col f)).toJson.getField "operation" =
      some (.str "nempty") :=
  ⟨rfl, rfl, rfl, rfl, rfl, rfl, rfl, rfl⟩

/-- The deep copy of a builder state equals the source state (the
round trip preserves every member value; independence of the copies
is the store-level statement of claim C5). -/
theorem copy_eq_self (q : QueryDict) : Query.copy q = q := by
  cases q with
  | mk markets symbols options columns filter filter2 sort range preset pc =>
      cases symbols with
      | none =>
          cases options <;> cases filter <;> cases filter2 <;> cases sort <;>
            cases range <;> cases pc <;>
            simp [Query.copy, symbolsDict_clone_eq, operationDict_clone_eq,
                  filterList_clone_eq]
      | some s =>
          cases options <;> cases filter <;> cases filter2 <;> cases sort <;>
            cases range <;> cases pc <;>
            simp [Query.copy, symbolsDict_clone_eq, operationDict_clone_eq,
                  filterList_clone_eq]

/-- C2: for every argument list of `And` or `Or`, a bare simple
predicate at position `i` is wrapped as a leaf expression node at
position `i`, an already-tagged connective at position `i` is passed
through as an operand unchanged, and no flattening occurs:
`And(p, Or(q, r))` is the two-operand AND node whose second operand
is the intact `Or(q, r)` node. -/
theorem claim_C2_wrap_passthrough :
    (∀ args : List AndOrArg,
      (And args).operation.operator = .and ∧
      (Or args).operation.operator = .or ∧
      (And args).operation.operands.length = args.length ∧
      (Or args).operation.operands.length = args.length ∧
      (∀ i p, args.get? i = some (.pred p) →
        (And args).operation.operands.get? i = some (.exprD ⟨p⟩) ∧
        (Or args).operation.operands.get? i = some (.exprD ⟨p⟩)) ∧
      (∀ i o, args.get? i = some (.opd o) →
        (And args).operation.operands.get? i = some o.toOperand ∧
        (Or args).operation.operands.get? i = some o.toOperand)) ∧
    (∀ p q r : FilterOperationDict,
      And [.pred p, .opd (Or [.pred q, .pred r])] =
        ⟨⟨.and, [.exprD ⟨p⟩, .opD .or [.exprD ⟨q⟩, .exprD ⟨r⟩]]⟩⟩) := by
  constructor
  · intro args
    refine ⟨rfl, rfl, by simp [And], by simp [Or], ?_, ?_⟩
    · intro i p hp
      have hp' : args[i]? = some (.pred p) := by
        simpa [List.get?_eq_getElem?] using hp
      constructor <;> simp [And, Or, List.getElem?_map, hp', toOperandOfArg]
    · intro i o ho
      have ho' : args[i]? = some (.opd o) := by
        simpa [List.get?_eq_getElem?] using ho
      constructor <;> simp [And, Or, List.getElem?_map, ho', toOperandOfArg]
  · intro p q r
    rfl

/-- C2 witness: the positional rules instantiated at a concrete
argument list. -/
theorem claim_C2_witness :
    ([AndOrArg.pred ⟨"close", .greater, some (.num 100)⟩,
      AndOrArg.opd (Or [.pred ⟨"volume", .less, some (.num 5)⟩])].get? 0 =
        some (.pred ⟨"close", .greater, some (.num 100)⟩)) ∧
    (And [AndOrArg.pred ⟨"close", .greater, some (.num 100)⟩,
          AndOrArg.opd (Or [.pred ⟨"volume", .less, some (.num 5)⟩])]).operation.operands.get? 0 =
      some (.exprD ⟨⟨"close", .greater, some (.num 100)⟩⟩) :=
  ⟨rfl,
    ((claim_C2_wrap_passthrough.1
      [AndOrArg.pred ⟨"close", .greater, some (.num 100)⟩,
       AndOrArg.opd (Or [.pred ⟨"volume", .less, some (.num 5)⟩])]).2.2.2.2.1
      0 ⟨"close", .greater, some (.num 100)⟩ rfl).1⟩

/-- C4, counterexample: `And` and `Or` applied to the empty argument
list produce a connective node with an empty operand sequence, so the
claim that every produced node has at least one operand is false at
the empty argument list. -/
theorem claim_C4_counterexample :
    (And []).operation.operands.length = 0 ∧
    (Or []).operation.operands.length = 0 :=
  ⟨rfl, rfl⟩

/-- C4, amended: every connective node produced by `And` or `Or` from
a non-empty argument list has at least one operand (the operand
sequence has exactly one entry per argument); the empty argument list
yields a node with an empty operand sequence. -/
theorem claim_C4_nonempty_operands (args : List AndOrArg) (h : args ≠ []) :
    1 ≤ (And args).operation.operands.length ∧
    1 ≤ (Or args).operation.operands.length := by
  have hlen : 0 < args.length := List.length_pos.mpr h
  constructor <;> simpa [And, Or] using hlen

/-- Mutating the builder at one store cell leaves every other cell
untouched. -/
theorem applyOpsAt_getD_ne (ops : List BuilderOp) (cells : Store) (i j : Nat)
    (hne : i ≠ j) :
    (Store.applyOpsAt cells j ops).getD i Query.new = cells.getD i Query.new := by
  induction ops generalizing cells with
  | nil => rfl
  | cons op rest ih =>
      show (Store.applyOpsAt (Store.applyAt cells j op) j rest).getD i Query.new
            = cells.getD i Query.new
      rw [ih (Store.applyAt cells j op)]
      simp [Store.applyAt, List.getD]
      rw [List.getElem?_set_ne (by omega)]

/-- C5: with `C = Q.copy()`, mutating `C` by any sequence of builder
calls leaves `Q`'s entire state equal to its pre-copy value, and
mutating `Q` leaves `C`'s state equal to that same value; the copy's
initial state equals the source state (the deep rebuild is
value-identity), and the two builders live in disjoint store cells,
sharing no mutable structure. -/
theorem claim_C5_copy_independence (q : QueryDict) (ops : List BuilderOp) :
    Query.copy q = q ∧
    (Store.applyOpsAt (copyStore q) 1 ops).getD 0 Query.new = q ∧
    (Store.applyOpsAt (copyStore q) 0 ops).getD 1 Query.new = q := by
  refine ⟨copy_eq_self q, ?_, ?_⟩
  · rw [applyOpsAt_getD_ne ops (copyStore q) 0 1 (by omega)]
    rfl
  · rw [applyOpsAt_getD_ne ops (copyStore q) 1 0 (by omega)]
    show Query.copy q = q
    exact copy_eq_self q

/-- A builder call with non-negative range arguments preserves the
range invariant: the range is present, the lower bound non-negative
and the upper bound at least the lower bound. -/
theorem applyOp_range_inv (q : QueryDict) (op : BuilderOp) (hop : opNonNeg op)
    (h : ∃ lo hi : Int, q.range = some (lo, hi) ∧ 0 ≤ lo ∧ lo ≤ hi) :
    ∃ lo hi : Int,
      (Query.applyOp q op).range = some (lo, hi) ∧ 0 ≤ lo ∧ lo ≤ hi := by
  obtain ⟨lo, hi, hr, h0, hle⟩ := h
  cases op with
  | select cs =>
      refine ⟨lo, hi, ?_, h0, hle⟩
      simp only [Query.applyOp, Query.select]
      split <;> simpa using hr
  | setMarkets ms =>
      refine ⟨lo, hi, ?_, h0, hle⟩
      simp only [Query.applyOp, Query.setMarkets]
      split <;> simpa using hr
  | setTickers ts =>
      refine ⟨lo, hi, ?_, h0, hle⟩
      simp only [Query.applyOp, Query.setTickers]
      split <;> simpa using hr
  | setIndex ixs =>
      refine ⟨lo, hi, ?_, h0, hle⟩
      simp only [Query.applyOp, Query.setIndex]
      split <;> simpa using hr
  | whereFilters es =>
      exact ⟨lo, hi, by simpa [Query.applyOp, Query.whereFilters] using hr, h0, hle⟩
  | where2 o =>
      exact ⟨lo, hi, by simpa [Query.applyOp, Query.where2] using hr, h0, hle⟩
  | orderBy c a n =>
      exact ⟨lo, hi, by simpa [Query.applyOp, Query.orderBy] using hr, h0, hle⟩
  | limit n =>
      refine ⟨lo, lo + n, ?_, h0, ?_⟩
      · simp [Query.applyOp, Query.limit, hr]
      · have : (0 : Int) ≤ n := hop
        omega
  | offset n =>
      refine ⟨n, n + (hi - lo), ?_, hop, ?_⟩
      · simp [Query.applyOp, Query.offset, hr]
      · omega

/-- C6: starting from the default range `[0,50]`, every sequence of
builder calls whose limit and offset arguments are non-negative
integers keeps the range a pair of non-negative integers with
`range[1] >= range[0]`. -/
theorem claim_C6_range_invariant (ops : List BuilderOp)
    (h : ∀ op ∈ ops, opNonNeg op) :
    ∃ lo hi : Int,
      (Query.applyOps Query.new ops).range = some (lo, hi) ∧
      0 ≤ lo ∧ lo ≤ hi := by
  suffices step : ∀ (ops : List BuilderOp) (q : QueryDict),
      (∀ op ∈ ops, opNonNeg op) →
      (∃ lo hi : Int, q.range = some (lo, hi) ∧ 0 ≤ lo ∧ lo ≤ hi) →
      ∃ lo hi : Int,
        (Query.applyOps q ops).range = some (lo, hi) ∧ 0 ≤ lo ∧ lo ≤ hi by
    exact step ops Query.new h ⟨0, 50, rfl, by omega, by omega⟩
  intro ops
  induction ops with
  | nil => exact fun q _ hq => hq
  | cons op rest ih =>
      intro q hops hq
      exact ih (Query.applyOp q op)
        (fun o ho => hops o (List.mem_cons_of_mem op ho))
        (applyOp_range_inv q op (hops op (List.mem_cons_self op rest)) hq)

/-- C6 witness: the invariant instantiated at a concrete call
sequence. -/
theorem claim_C6_witness :
    (∀ op ∈ [BuilderOp.limit 10, BuilderOp.offset 5], opNonNeg op) ∧
    ∃ lo hi : Int,
      (Query.applyOps Query.new [BuilderOp.limit 10, BuilderOp.offset 5]).range =
        some (lo, hi) ∧ 0 ≤ lo ∧ lo ≤ hi := by
  have hops : ∀ op ∈ [BuilderOp.limit 10, BuilderOp.offset 5], opNonNeg op := by
    intro op hmem
    rcases List.mem_cons.mp hmem with rfl | hmem
    · show (0 : Int) ≤ 10
      omega
    · rcases List.mem_cons.mp hmem with rfl | hmem
      · show (0 : Int) ≤ 5
        omega
      · cases hmem
  exact ⟨hops, claim_C6_range_invariant [BuilderOp.limit 10, BuilderOp.offset 5] hops⟩

/-- C10: setTickers and setIndex touch disjoint parts of the symbol
selection: a non-empty setTickers call replaces the ticker list
wholesale (whatever it held before, so the last call wins) while
leaving the groups unchanged, and a non-empty setIndex call appends
exactly one `{type: "index"}` group while leaving the ticker list
unchanged. -/
theorem claim_C10_symbols_disjoint (q : QueryDict) (ts ixs : List String)
    (hts : ts ≠ []) (hix : ixs ≠ []) :
    (Query.setTickers q ts).symbols.bind SymbolsDict.tickers = some ts ∧
    (Query.setTickers q ts).symbols.bind SymbolsDict.groups =
      q.symbols.bind SymbolsDict.groups ∧
    (Query.setIndex q ixs).symbols.bind SymbolsDict.groups =
      some ((q.symbols.bind SymbolsDict.groups).getD [] ++ [⟨"index", ixs⟩]) ∧
    (Query.setIndex q ixs).symbols.bind SymbolsDict.tickers =
      q.symbols.bind SymbolsDict.tickers := by
  have hts' : ts.length > 0 := List.length_pos.mpr hts
  have hix' : ixs.length > 0 := List.length_pos.mpr hix
  cases hsym : q.symbols with
  | none =>
      refine ⟨?_, ?_, ?_, ?_⟩ <;>
        simp [Query.setTickers, Query.setIndex, hts', hix', hsym,
              SymbolsDict.emptyDict]
  | some s =>
      cases hg : s.groups <;>
        refine ⟨?_, ?_, ?_, ?_⟩ <;>
          simp_all [Query.setTickers, Query.setIndex, hts', hix',
                    SymbolsDict.emptyDict]

/-- C10 witness: the disjointness instantiated at the default builder
with a concrete ticker and index. -/
theorem claim_C10_witness :
    (["NASDAQ:AAPL"] ≠ ([] : List String)) ∧
    (["SP500"] ≠ ([] : List String)) ∧
    (Query.setTickers Query.new ["NASDAQ:AAPL"]).symbols.bind
      SymbolsDict.tickers = some ["NASDAQ:AAPL"] :=
  ⟨List.cons_ne_nil _ _, List.cons_ne_nil _ _,
    (claim_C10_symbols_disjoint Query.new ["NASDAQ:AAPL"] ["SP500"]
      (List.cons_ne_nil _ _) (List.cons_ne_nil _ _)).1⟩

/-- Assigning a key not present in a record appends it. -/
theorem setKey_fresh (obj : JsRecord) (k : String) (v : Option Json)
    (h : ∀ p ∈ obj, p.1 ≠ k) : setKey obj k v = obj ++ [(k, v)] := by
  unfold setKey
  rw [if_neg]
  simp only [List.any_eq_true, not_exists, not_and]
  intro p hp
  simpa using h p hp

/-- Folding fresh, pairwise-distinct key assignments over a record
appends one entry per assignment, in order. -/
theorem foldl_setKey_fresh (d : List Json) (cols : List String) :
    ∀ (n : Nat) (obj : JsRecord), cols.Nodup →
      (∀ c ∈ cols, ∀ p ∈ obj, p.1 ≠ c) →
      List.foldl (fun obj ic => setKey obj ic.2 (d.get? ic.1)) obj
          (List.enumFrom n cols)
        = obj ++ (List.enumFrom n cols).map (fun ic => (ic.2, d.get? ic.1)) := by
  induction cols with
  | nil => intro n obj _ _; simp
  | cons c cs ih =>
      intro n obj hnd hfresh
      have hcnotin : c ∉ cs := (List.nodup_cons.mp hnd).1
      have hc : ∀ p ∈ obj, p.1 ≠ c :=
        fun p hp => hfresh c (List.mem_cons_self c cs) p hp
      show List.foldl _ _ ((n, c) :: List.enumFrom (n + 1) cs)
            = obj ++ ((n, c) :: List.enumFrom (n + 1) cs).map
                (fun ic => (ic.2, d.get? ic.1))
      rw [List.foldl_cons]
      show List.foldl _ (setKey obj c (d.get? n)) _ = _
      rw [setKey_fresh obj c (d.get? n) hc]
      rw [ih (n + 1) (obj ++ [(c, d.get? n)]) (List.nodup_cons.mp hnd).2 ?_]
      · simp
      · intro c' hc' p hp
        rcases List.mem_append.mp hp with hmem | hmem
        · exact hfresh c' (List.mem_cons_of_mem c hc') p hmem
        · have hpc : p = (c, d.get? n) := by simpa using hmem
          subst hpc
          exact fun e => hcnotin ((show c = c' from e) ▸ hc')

/-- One mapped record is the symbol entry followed by one entry per
selected column in order, provided the column names are pairwise
distinct and none is the reserved key `symbol`. -/
theorem mapRow_eq (cols : List String) (row : ScreenerRowDict)
    (hnd : cols.Nodup) (hs : "symbol" ∉ cols) :
    mapRow cols row =
      ("symbol", some (.str row.s)) ::
        cols.enum.map (fun ic => (ic.2, row.d.get? ic.1)) := by
  unfold mapRow
  show List.foldl _ _ (List.enumFrom 0 cols) = _
  rw [foldl_setKey_fresh row.d cols 0 [("symbol", some (.str row.s))] hnd ?_]
  · simp
    rfl
  · intro c hc p hp
    have hpv : p = ("symbol", some (.str row.s)) := by simpa using hp
    subst hpv
    exact fun e => hs ((show "symbol" = c from e) ▸ hc)

/-- C7: the mapper produces exactly one record per response row, in
order, passes totalCount through unchanged, and each record is the
symbol entry plus `columns[i] : values[i]` for each column index (a
missing value maps to an `undefined` entry), provided the selected
column names are pairwise distinct and none is `symbol`. -/
theorem claim_C7_response_mapping (cols : List String) (q : QueryDict)
    (raw : ScreenerDict) (hq : q.columns = some cols) (hnd : cols.Nodup)
    (hs : "symbol" ∉ cols) :
    (Query.getScannerData q raw).totalCount = raw.totalCount ∧
    (Query.getScannerData q raw).data =
      raw.data.map (fun row =>
        ("symbol", some (.str row.s)) ::
          cols.enum.map (fun ic => (ic.2, row.d.get? ic.1))) := by
  constructor
  · rfl
  · show (raw.data.map (mapRow (match q.columns with
        | none => []
        | some cs => cs))) = _
    rw [hq]
    exact List.map_congr_left fun row _ => mapRow_eq cols row hnd hs

/-- C7 witness: the mapping rule instantiated at the spec's concrete
example: columns `['close','volume']` and the wire row
`{s: 'NASDAQ:AAPL', d: [150.2, 9000000]}` map to
`{symbol: 'NASDAQ:AAPL', close: 150.2, volume: 9000000}`. -/
theorem claim_C7_witness :
    (["close", "volume"].Nodup ∧ "symbol" ∉ ["close", "volume"]) ∧
    (Query.getScannerData (Query.select Query.new ["close", "volume"])
        ⟨1, [⟨"NASDAQ:AAPL", [.num 150.2, .num 9000000]⟩]⟩).totalCount = 1 ∧
    (Query.getScannerData (Query.select Query.new ["close", "volume"])
        ⟨1, [⟨"NASDAQ:AAPL", [.num 150.2, .num 9000000]⟩]⟩).data =
      [[("symbol", some (.str "NASDAQ:AAPL")),
        ("close", some (.num 150.2)),
        ("volume", some (.num 9000000))]] := by
  have h := claim_C7_response_mapping ["close", "volume"]
    (Query.select Query.new ["close", "volume"])
    ⟨1, [⟨"NASDAQ:AAPL", [.num 150.2, .num 9000000]⟩]⟩
    rfl (by simp) (by simp)
  refine ⟨⟨by simp, by simp⟩, h.1, ?_⟩
  rw [h.2]
  rfl

/-- C4 witness: the amended claim instantiated at a one-argument
list. -/
theorem claim_C4_witness :
    ([AndOrArg.pred ⟨"close", .greater, some (.num 100)⟩] ≠ []) ∧
    1 ≤ (And [AndOrArg.pred ⟨"close", .greater, some (.num 100)⟩]).operation.operands.length :=
  ⟨List.cons_ne_nil _ _,
    (claim_C4_nonempty_operands
      [AndOrArg.pred ⟨"close", .greater, some (.num 100)⟩]
      (List.cons_ne_nil _ _)).1⟩

end TVScreener
